import Mathlib

/-!
Verification of the robot-visual-perception backend's core numeric and
tracking routines, as a shallow embedding in Lean.

Python floating-point values are modelled over `ℚ` (exact rational
arithmetic); all the properties proved here concern values (small integers,
halves, and the literal constants 0.5, 0.8, 1.5, 1e-6) that IEEE-754 doubles
represent and combine exactly, so the rational model agrees with the float
semantics on every statement below.  Real-valued trigonometry
(`compute_camera_intrinsics`) is modelled over `ℝ`.
-/

/-- Linear interpolation between two values, from
`common/utils/transforms.py` (`lerp`): `val1 + (val2 - val1) * t`. -/
def lerp (val1 val2 t : ℚ) : ℚ :=
  val1 + (val2 - val1) * t

/-- Python's built-in `round` (round half to even, banker's rounding),
used by `lerp_int` via `int(round(...))`. -/
def pyRound (q : ℚ) : ℤ :=
  let f := ⌊q⌋
  let r := q - (f : ℚ)
  if r < 1/2 then f
  else if 1/2 < r then f + 1
  else if f % 2 = 0 then f else f + 1

/-- Linear interpolation between two integers rounded to int, from
`common/utils/transforms.py` (`lerp_int`): `int(round(lerp(value1, value2, t)))`. -/
def lerp_int (value1 value2 : ℤ) (t : ℚ) : ℤ :=
  pyRound (lerp (value1 : ℚ) (value2 : ℚ) t)

/-- Interpolation factor between two frames, from
`common/utils/transforms.py` (`calculate_interpolation_factor`):
`0.0` when `frame1 == frame2`, else `(target_frame - frame1) / (frame2 - frame1)`
clamped to `[0, clamp_max]`. -/
def calculate_interpolation_factor (frame1 frame2 target_frame : ℤ)
    (clamp_max : ℚ) : ℚ :=
  if frame1 = frame2 then 0
  else max 0 (min clamp_max (((target_frame : ℚ) - (frame1 : ℚ)) / ((frame2 : ℚ) - (frame1 : ℚ))))

/-- Adaptive scaling step, from `common/utils/transforms.py`
(`calculate_adaptive_scale`): adjust the current scale by the smoothing
factor depending on the FPS band, then clamp to `[min_scale, max_scale]`. -/
def calculate_adaptive_scale (current_fps current_scale smooth_factor
    min_scale max_scale : ℚ) : ℚ :=
  let new_scale :=
    if current_fps < 10 then current_scale - smooth_factor
    else if current_fps < 18 then current_scale - smooth_factor * (1/2)
    else current_scale + smooth_factor * (4/5)
  max min_scale (min max_scale new_scale)

/-- A sequence of adaptive-scale updates, one per measured FPS value, as
performed by `AnalyzerWebSocketManager._update_fps_and_scaling` once per
elapsed second. -/
def adaptiveScaleRun (smooth_factor min_scale max_scale : ℚ)
    (scale0 : ℚ) (fpsSamples : List ℚ) : ℚ :=
  fpsSamples.foldl
    (fun s fps => calculate_adaptive_scale fps s smooth_factor min_scale max_scale)
    scale0

-- Basic facts used below.

theorem pyRound_intCast (n : ℤ) : pyRound (n : ℚ) = n := by
  simp [pyRound]

theorem lerp_zero (a b : ℚ) : lerp a b 0 = a := by
  simp [lerp]

theorem lerp_one (a b : ℚ) : lerp a b 1 = b := by
  simp [lerp]

theorem lerp_half (a b : ℚ) : lerp a b (1/2) = (a + b) / 2 := by
  simp [lerp]; ring

theorem calculate_interpolation_factor_at_start (f1 f2 : ℤ) (c : ℚ) :
    calculate_interpolation_factor f1 f2 f1 c = 0 := by
  unfold calculate_interpolation_factor
  split
  · rfl
  · simp

theorem calculate_interpolation_factor_at_end (f1 f2 : ℤ) (c : ℚ)
    (hne : f1 ≠ f2) (hc : 1 ≤ c) :
    calculate_interpolation_factor f1 f2 f2 c = 1 := by
  unfold calculate_interpolation_factor
  rw [if_neg hne]
  have hden : ((f2 : ℚ) - (f1 : ℚ)) ≠ 0 := by
    intro h
    apply hne
    have h2 : (f1 : ℚ) = (f2 : ℚ) := by linarith
    exact_mod_cast h2
  rw [div_self hden]
  rw [min_eq_right hc]
  simp

theorem calculate_interpolation_factor_at_mid (f1 f2 t : ℤ) (c : ℚ)
    (hne : f1 ≠ f2) (hmid : 2 * t = f1 + f2) (hc : 1/2 ≤ c) :
    calculate_interpolation_factor f1 f2 t c = 1/2 := by
  unfold calculate_interpolation_factor
  rw [if_neg hne]
  have hden : ((f2 : ℚ) - (f1 : ℚ)) ≠ 0 := by
    intro h
    apply hne
    have h2 : (f1 : ℚ) = (f2 : ℚ) := by linarith
    exact_mod_cast h2
  have hmidq : (2 : ℚ) * (t : ℚ) = (f1 : ℚ) + (f2 : ℚ) := by exact_mod_cast hmid
  have hratio : ((t : ℚ) - (f1 : ℚ)) / ((f2 : ℚ) - (f1 : ℚ)) = 1/2 := by
    field_simp
    linarith
  rw [hratio, min_eq_right hc]
  norm_num

/-- Raw detection from the object detector, from
`common/core/contracts.py` / `common/typing.py` (`Detection`); the optional
binary segmentation mask is a boolean matrix. -/
structure Detection where
  x1 : ℤ
  y1 : ℤ
  x2 : ℤ
  y2 : ℤ
  cls_id : ℤ
  confidence : ℚ
  binary_mask : Option (List (List Bool)) := none
  deriving Repr, DecidableEq

/-- Detection with tracking metadata, from
`analyzer/tracked_object.py` (`TrackedDetection`). -/
structure TrackedDetection where
  x1 : ℤ
  y1 : ℤ
  x2 : ℤ
  y2 : ℤ
  cls_id : ℤ
  confidence : ℚ
  distance : ℚ
  frame_id : ℤ
  timestamp : ℚ
  deriving Repr, DecidableEq

/-- A tracked object across frames, from
`analyzer/tracked_object.py` (`TrackedObject`).  The bounded deque history is
modelled as a list with the most recent detection last; the `maxlen` bound is
applied by `addDetection`. -/
structure TrackedObject where
  track_id : ℤ
  cls_id : ℤ
  history : List TrackedDetection
  last_seen_frame : Option ℤ := none
  detection_count : ℕ := 0
  deriving Repr, DecidableEq

/-- `TrackedObject.add_detection`: append to history (evicting from the
front when the deque is at its `maxlen` capacity), update `last_seen_frame`
and the detection count. -/
def addDetection (maxHistorySize : ℕ) (tr : TrackedObject)
    (det : TrackedDetection) : TrackedObject :=
  let h := tr.history ++ [det]
  { tr with
    history := if maxHistorySize < h.length then h.drop (h.length - maxHistorySize) else h
    last_seen_frame := some det.frame_id
    detection_count := tr.detection_count + 1 }

/-- `TrackedObject.is_active`: the track has met the activation threshold. -/
def isActive (tr : TrackedObject) (detection_threshold : ℕ) : Bool :=
  detection_threshold ≤ tr.detection_count

/-- `TrackedObject.get_interpolated` from `analyzer/tracked_object.py`:
with fewer than two history entries return the lone entry or nothing;
otherwise linearly interpolate the last two entries at interpolation factor
`t` (clamped to `[0, 1.5]`), rounding box coordinates and decaying the
earlier entry's confidence by `1 - t * confidence_decay`. -/
def getInterpolated (tr : TrackedObject) (target_frame_id : ℤ)
    (target_timestamp : ℚ) (confidence_decay : ℚ) : Option TrackedDetection :=
  match tr.history.reverse with
  | [] => none
  | [d] => some d
  | tracked2 :: tracked1 :: _ =>
    let t := calculate_interpolation_factor tracked1.frame_id tracked2.frame_id
      target_frame_id (3/2)
    some
      { x1 := lerp_int tracked1.x1 tracked2.x1 t
        y1 := lerp_int tracked1.y1 tracked2.y1 t
        x2 := lerp_int tracked1.x2 tracked2.x2 t
        y2 := lerp_int tracked1.y2 tracked2.y2 t
        cls_id := tr.cls_id
        confidence := tracked1.confidence * (1 - t * confidence_decay)
        distance := lerp tracked1.distance tracked2.distance t
        frame_id := target_frame_id
        timestamp := target_timestamp }

/-- Reduction of `getInterpolated` when the history has at least two
entries: `tracked1` is the second-to-last entry, `tracked2` the last. -/
theorem getInterpolated_of_two (tr : TrackedObject) (d1 d2 : TrackedDetection)
    (rest : List TrackedDetection) (target : ℤ) (ts decay : ℚ)
    (h : tr.history.reverse = d2 :: d1 :: rest) :
    getInterpolated tr target ts decay = some
      { x1 := lerp_int d1.x1 d2.x1
          (calculate_interpolation_factor d1.frame_id d2.frame_id target (3/2))
        y1 := lerp_int d1.y1 d2.y1
          (calculate_interpolation_factor d1.frame_id d2.frame_id target (3/2))
        x2 := lerp_int d1.x2 d2.x2
          (calculate_interpolation_factor d1.frame_id d2.frame_id target (3/2))
        y2 := lerp_int d1.y2 d2.y2
          (calculate_interpolation_factor d1.frame_id d2.frame_id target (3/2))
        cls_id := tr.cls_id
        confidence := d1.confidence *
          (1 - calculate_interpolation_factor d1.frame_id d2.frame_id target (3/2) * decay)
        distance := lerp d1.distance d2.distance
          (calculate_interpolation_factor d1.frame_id d2.frame_id target (3/2))
        frame_id := target
        timestamp := ts } := by
  unfold getInterpolated
  rw [h]

/-- The interpolation factor exactly as the spec states it:
`clamp((target - f1) / (f2 - f1), 0, 1.5)`, defined as `0` when `f1 = f2`. -/
def tClamp (f1 f2 target : ℤ) : ℚ :=
  if f1 = f2 then 0
  else max 0 (min (3/2) (((target : ℚ) - (f1 : ℚ)) / ((f2 : ℚ) - (f1 : ℚ))))

/-- C2.  For every track whose history holds at least two entries, with
frame ids `f1` (second-to-last entry `d1`) and `f2` (last entry `d2`),
`get_interpolated` interpolates with
`t = clamp((target - f1) / (f2 - f1), 0, 1.5)` (and `t = 0` when
`f1 = f2`), returning rounded linearly interpolated box coordinates,
linearly interpolated distance, and confidence `conf1 * (1 - t * decay)`;
at `t = 0` it reproduces the earlier entry's box and distance, at `t = 1`
the later entry's, and at `t = 1/2` their arithmetic means. -/
theorem getInterpolated_formula_and_endpoints (tr : TrackedObject)
    (d1 d2 : TrackedDetection) (rest : List TrackedDetection)
    (target : ℤ) (ts decay : ℚ)
    (h : tr.history.reverse = d2 :: d1 :: rest) :
    (getInterpolated tr target ts decay = some
      { x1 := pyRound (lerp (d1.x1 : ℚ) (d2.x1 : ℚ) (tClamp d1.frame_id d2.frame_id target))
        y1 := pyRound (lerp (d1.y1 : ℚ) (d2.y1 : ℚ) (tClamp d1.frame_id d2.frame_id target))
        x2 := pyRound (lerp (d1.x2 : ℚ) (d2.x2 : ℚ) (tClamp d1.frame_id d2.frame_id target))
        y2 := pyRound (lerp (d1.y2 : ℚ) (d2.y2 : ℚ) (tClamp d1.frame_id d2.frame_id target))
        cls_id := tr.cls_id
        confidence := d1.confidence * (1 - tClamp d1.frame_id d2.frame_id target * decay)
        distance := lerp d1.distance d2.distance (tClamp d1.frame_id d2.frame_id target)
        frame_id := target
        timestamp := ts }) ∧
    (target = d1.frame_id → getInterpolated tr target ts decay = some
      { x1 := d1.x1, y1 := d1.y1, x2 := d1.x2, y2 := d1.y2
        cls_id := tr.cls_id, confidence := d1.confidence
        distance := d1.distance, frame_id := target, timestamp := ts }) ∧
    (d1.frame_id ≠ d2.frame_id → target = d2.frame_id →
      getInterpolated tr target ts decay = some
      { x1 := d2.x1, y1 := d2.y1, x2 := d2.x2, y2 := d2.y2
        cls_id := tr.cls_id, confidence := d1.confidence * (1 - decay)
        distance := d2.distance, frame_id := target, timestamp := ts }) ∧
    (d1.frame_id ≠ d2.frame_id → 2 * target = d1.frame_id + d2.frame_id →
      getInterpolated tr target ts decay = some
      { x1 := pyRound (((d1.x1 : ℚ) + (d2.x1 : ℚ)) / 2)
        y1 := pyRound (((d1.y1 : ℚ) + (d2.y1 : ℚ)) / 2)
        x2 := pyRound (((d1.x2 : ℚ) + (d2.x2 : ℚ)) / 2)
        y2 := pyRound (((d1.y2 : ℚ) + (d2.y2 : ℚ)) / 2)
        cls_id := tr.cls_id, confidence := d1.confidence * (1 - decay / 2)
        distance := (d1.distance + d2.distance) / 2
        frame_id := target, timestamp := ts }) := by
  refine ⟨?_, ?_, ?_, ?_⟩
  · rw [getInterpolated_of_two tr d1 d2 rest target ts decay h]
    simp only [lerp_int, tClamp, calculate_interpolation_factor]
  · intro ht
    subst ht
    rw [getInterpolated_of_two tr d1 d2 rest d1.frame_id ts decay h]
    rw [calculate_interpolation_factor_at_start]
    simp [lerp_int, lerp_zero, pyRound_intCast]
  · intro hne ht
    subst ht
    rw [getInterpolated_of_two tr d1 d2 rest d2.frame_id ts decay h]
    rw [calculate_interpolation_factor_at_end d1.frame_id d2.frame_id (3/2) hne (by norm_num)]
    simp [lerp_int, lerp_one, pyRound_intCast]
  · intro hne hmid
    rw [getInterpolated_of_two tr d1 d2 rest target ts decay h]
    rw [calculate_interpolation_factor_at_mid d1.frame_id d2.frame_id target (3/2) hne hmid (by norm_num)]
    simp only [lerp_int, lerp_half]
    have hconf : d1.confidence * (1 - 1/2 * decay) = d1.confidence * (1 - decay / 2) := by
      ring
    rw [hconf]

/-- Second-to-last history entry of the concrete two-entry track used to
instantiate the interpolation theorems (mirrors the repository's tracking
tests: frames 1 and 3, boxes (10,20,50,60) and (20,30,60,70)). -/
def exampleD1 : TrackedDetection :=
  { x1 := 10, y1 := 20, x2 := 50, y2 := 60, cls_id := 1
    confidence := 9/10, distance := 2, frame_id := 1, timestamp := 1 }

/-- Last history entry of the concrete example track. -/
def exampleD2 : TrackedDetection :=
  { x1 := 20, y1 := 30, x2 := 60, y2 := 70, cls_id := 1
    confidence := 8/10, distance := 3, frame_id := 3, timestamp := 3 }

/-- Concrete track holding `exampleD1` then `exampleD2`. -/
def exampleTrack : TrackedObject :=
  { track_id := 0, cls_id := 1, history := [exampleD1, exampleD2]
    last_seen_frame := some 3, detection_count := 2 }

/-- Witness for C2: interpolating the example track at the midpoint frame 2
yields the rounded coordinate means, the mean distance, and the decayed
confidence `0.9 * (1 - 0.2/2)`. -/
theorem getInterpolated_formula_and_endpoints_witness :
    getInterpolated exampleTrack 2 (2 : ℚ) (1/5) = some
      { x1 := 15, y1 := 25, x2 := 55, y2 := 65, cls_id := 1
        confidence := 81/100, distance := 5/2, frame_id := 2, timestamp := 2 } := by
  have h := (getInterpolated_formula_and_endpoints exampleTrack exampleD1 exampleD2 []
    2 2 (1/5) rfl).2.2.2 (by decide) (by decide)
  rw [h]
  norm_num [exampleD1, exampleD2, exampleTrack, pyRound]

/-- C9.  `get_interpolated` applies no clamp to the decayed confidence:
whenever the history has two entries the returned confidence is exactly
`conf1 * (1 - t * confidence_decay)`; concretely, extrapolating the example
track (frames 1 and 3, confidence 0.9) to frame 4 (`t = 1.5`) with decay
0.7 returns the negative confidence `-0.045`. -/
theorem getInterpolated_confidence_unclamped (tr : TrackedObject)
    (d1 d2 : TrackedDetection) (rest : List TrackedDetection)
    (target : ℤ) (ts decay : ℚ)
    (h : tr.history.reverse = d2 :: d1 :: rest) :
    Option.map TrackedDetection.confidence (getInterpolated tr target ts decay) =
      some (d1.confidence *
        (1 - calculate_interpolation_factor d1.frame_id d2.frame_id target (3/2) * decay)) ∧
    Option.map TrackedDetection.confidence (getInterpolated exampleTrack 4 4 (7/10)) =
      some (-9/200) ∧
    (-9/200 : ℚ) < 0 := by
  refine ⟨?_, ?_, by norm_num⟩
  · rw [getInterpolated_of_two tr d1 d2 rest target ts decay h]
    rfl
  · rw [getInterpolated_of_two exampleTrack exampleD1 exampleD2 [] 4 4 (7/10) rfl]
    norm_num [exampleD1, exampleD2, exampleTrack, calculate_interpolation_factor]

/-- Witness for C9: the concrete extrapolated confidence is negative. -/
theorem getInterpolated_confidence_unclamped_witness :
    Option.map TrackedDetection.confidence (getInterpolated exampleTrack 4 4 (7/10)) =
      some (-9/200) ∧ (-9/200 : ℚ) < 0 :=
  ⟨(getInterpolated_confidence_unclamped exampleTrack exampleD1 exampleD2 [] 4 4
      (7/10) rfl).2.1,
   (getInterpolated_confidence_unclamped exampleTrack exampleD1 exampleD2 [] 4 4
      (7/10) rfl).2.2⟩

/-- One adaptive-scale step stays inside `[min_scale, max_scale]` whenever
that interval is nonempty. -/
theorem calculate_adaptive_scale_mem (fps scale sf lo hi : ℚ) (hlh : lo ≤ hi) :
    lo ≤ calculate_adaptive_scale fps scale sf lo hi ∧
      calculate_adaptive_scale fps scale sf lo hi ≤ hi := by
  unfold calculate_adaptive_scale
  exact ⟨le_max_left _ _, max_le hlh (min_le_left _ _)⟩

/-- Starting inside `[min_scale, max_scale]`, any sequence of
adaptive-scale updates stays inside the interval. -/
theorem adaptiveScaleRun_mem (sf lo hi : ℚ) :
    ∀ (fpsSamples : List ℚ) (s0 : ℚ), lo ≤ s0 → s0 ≤ hi →
      lo ≤ adaptiveScaleRun sf lo hi s0 fpsSamples ∧
        adaptiveScaleRun sf lo hi s0 fpsSamples ≤ hi
  | [], s0, h0, h1 => ⟨h0, h1⟩
  | f :: rest, s0, h0, h1 => by
      have hstep := calculate_adaptive_scale_mem f s0 sf lo hi (h0.trans h1)
      have hrec := adaptiveScaleRun_mem sf lo hi rest
        (calculate_adaptive_scale f s0 sf lo hi) hstep.1 hstep.2
      simpa [adaptiveScaleRun] using hrec

/-- C4.  One `calculate_adaptive_scale` step subtracts `smooth_factor` when
`fps < 10`, subtracts `smooth_factor * 0.5` when `10 ≤ fps < 18`, adds
`smooth_factor * 0.8` when `fps ≥ 18`, clamping to
`[min_scale, max_scale]`; consequently, starting from a scale inside
`[min_scale, max_scale]`, the scale never leaves the interval across any
sequence of FPS-driven updates. -/
theorem adaptive_scale_bands_and_invariant :
    (∀ fps scale sf lo hi : ℚ, fps < 10 →
      calculate_adaptive_scale fps scale sf lo hi = max lo (min hi (scale - sf))) ∧
    (∀ fps scale sf lo hi : ℚ, 10 ≤ fps → fps < 18 →
      calculate_adaptive_scale fps scale sf lo hi =
        max lo (min hi (scale - sf * (1/2)))) ∧
    (∀ fps scale sf lo hi : ℚ, 18 ≤ fps →
      calculate_adaptive_scale fps scale sf lo hi =
        max lo (min hi (scale + sf * (4/5)))) ∧
    (∀ (sf lo hi s0 : ℚ) (fpsSamples : List ℚ), lo ≤ s0 → s0 ≤ hi →
      lo ≤ adaptiveScaleRun sf lo hi s0 fpsSamples ∧
        adaptiveScaleRun sf lo hi s0 fpsSamples ≤ hi) := by
  refine ⟨?_, ?_, ?_, ?_⟩
  · intro fps scale sf lo hi h
    unfold calculate_adaptive_scale
    rw [if_pos h]
  · intro fps scale sf lo hi h10 h18
    unfold calculate_adaptive_scale
    rw [if_neg (not_lt.mpr h10), if_pos h18]
  · intro fps scale sf lo hi h18
    unfold calculate_adaptive_scale
    rw [if_neg (not_lt.mpr (le_trans (by norm_num) h18)), if_neg (not_lt.mpr h18)]
  · intro sf lo hi s0 fpsSamples h0 h1
    exact adaptiveScaleRun_mem sf lo hi fpsSamples s0 h0 h1

/-- Witness for C4: each FPS band at a concrete input, and a concrete
three-sample run starting at scale 0.8 in `[0.3, 1]`. -/
theorem adaptive_scale_bands_and_invariant_witness :
    calculate_adaptive_scale 5 (4/5) (1/10) (3/10) 1 =
      max (3/10) (min 1 ((4/5) - 1/10)) ∧
    calculate_adaptive_scale 12 (4/5) (1/10) (3/10) 1 =
      max (3/10) (min 1 ((4/5) - (1/10) * (1/2))) ∧
    calculate_adaptive_scale 20 (4/5) (1/10) (3/10) 1 =
      max (3/10) (min 1 ((4/5) + (1/10) * (4/5))) ∧
    ((3/10 : ℚ) ≤ adaptiveScaleRun (1/10) (3/10) 1 (4/5) [5, 20, 15] ∧
      adaptiveScaleRun (1/10) (3/10) 1 (4/5) [5, 20, 15] ≤ 1) :=
  ⟨adaptive_scale_bands_and_invariant.1 5 (4/5) (1/10) (3/10) 1 (by norm_num),
   adaptive_scale_bands_and_invariant.2.1 12 (4/5) (1/10) (3/10) 1 (by norm_num) (by norm_num),
   adaptive_scale_bands_and_invariant.2.2.1 20 (4/5) (1/10) (3/10) 1 (by norm_num),
   adaptive_scale_bands_and_invariant.2.2.2 (1/10) (3/10) 1 (4/5) [5, 20, 15]
     (by norm_num) (by norm_num)⟩

/-- An axis-aligned box `(x1, y1, x2, y2)`. -/
structure Box where
  x1 : ℚ
  y1 : ℚ
  x2 : ℚ
  y2 : ℚ
  deriving Repr, DecidableEq

/-- Pairwise intersection-over-union from `common/core/detector.py`
(`_iou`) and `common/utils/math.py` (`_intersection_over_union`),
specialized to one candidate box: intersection widths are clipped at 0,
the box areas are clipped at 0 (the first via `max(area, 0)`, the others
via clipping each side length), and the union gets `1e-6` added. -/
def iou (box other : Box) : ℚ :=
  let inter_x1 := max box.x1 other.x1
  let inter_y1 := max box.y1 other.y1
  let inter_x2 := min box.x2 other.x2
  let inter_y2 := min box.y2 other.y2
  let inter_w := max (inter_x2 - inter_x1) 0
  let inter_h := max (inter_y2 - inter_y1) 0
  let inter_area := inter_w * inter_h
  let box_area := max ((box.x2 - box.x1) * (box.y2 - box.y1)) 0
  let other_area := max (other.x2 - other.x1) 0 * max (other.y2 - other.y1) 0
  let union := box_area + other_area - inter_area + 1/1000000
  inter_area / union

/-- Any overlap that is empty along one axis gives IoU 0. -/
theorem iou_eq_zero_of_no_overlap (b o : Box)
    (h : min b.x2 o.x2 ≤ max b.x1 o.x1 ∨ min b.y2 o.y2 ≤ max b.y1 o.y1) :
    iou b o = 0 := by
  simp only [iou]
  rcases h with h | h
  · rw [show max (min b.x2 o.x2 - max b.x1 o.x1) 0 = 0 from
      max_eq_right (by linarith)]
    simp
  · rw [show max (min b.y2 o.y2 - max b.y1 o.y1) 0 = 0 from
      max_eq_right (by linarith)]
    simp

/-- Counterexample for C5: the IoU of the unit box with itself is
`1000000/1000001`, not `1.0`, because of the `1e-6` added to the union. -/
theorem iou_self_not_one_counterexample :
    iou (Box.mk 0 0 1 1) (Box.mk 0 0 1 1) = 1000000/1000001 ∧
      iou (Box.mk 0 0 1 1) (Box.mk 0 0 1 1) ≠ 1 := by
  constructor
  · norm_num [iou]
  · norm_num [iou]

/-- C5 (amended).  For every box with positive area, the self-IoU equals
`A / (A + 1e-6)` and is strictly below 1; disjoint boxes give IoU exactly
0; and a degenerate (zero- or negative-area) box on either side gives
IoU 0. -/
theorem iou_self_disjoint_degenerate :
    (∀ b : Box, b.x1 < b.x2 → b.y1 < b.y2 →
      iou b b = ((b.x2 - b.x1) * (b.y2 - b.y1)) /
          ((b.x2 - b.x1) * (b.y2 - b.y1) + 1/1000000) ∧
        iou b b < 1) ∧
    (∀ b o : Box, b.x2 ≤ o.x1 ∨ o.x2 ≤ b.x1 ∨ b.y2 ≤ o.y1 ∨ o.y2 ≤ b.y1 →
      iou b o = 0) ∧
    (∀ b o : Box, b.x2 ≤ b.x1 ∨ b.y2 ≤ b.y1 → iou b o = 0) ∧
    (∀ b o : Box, o.x2 ≤ o.x1 ∨ o.y2 ≤ o.y1 → iou b o = 0) := by
  refine ⟨?_, ?_, ?_, ?_⟩
  · intro b hx hy
    have hw : (0 : ℚ) < b.x2 - b.x1 := by linarith
    have hh : (0 : ℚ) < b.y2 - b.y1 := by linarith
    have hA : (0 : ℚ) < (b.x2 - b.x1) * (b.y2 - b.y1) := mul_pos hw hh
    have heq : iou b b = ((b.x2 - b.x1) * (b.y2 - b.y1)) /
        ((b.x2 - b.x1) * (b.y2 - b.y1) + 1/1000000) := by
      simp only [iou]
      rw [max_self, max_self, min_self, min_self,
        max_eq_left hw.le, max_eq_left hh.le, max_eq_left hA.le]
      ring_nf
    refine ⟨heq, ?_⟩
    rw [heq, div_lt_one (by linarith)]
    linarith
  · intro b o h
    apply iou_eq_zero_of_no_overlap
    rcases h with h | h | h | h
    · exact Or.inl (by
        have h1 := min_le_left b.x2 o.x2
        have h2 := le_max_right b.x1 o.x1
        linarith)
    · exact Or.inl (by
        have h1 := min_le_right b.x2 o.x2
        have h2 := le_max_left b.x1 o.x1
        linarith)
    · exact Or.inr (by
        have h1 := min_le_left b.y2 o.y2
        have h2 := le_max_right b.y1 o.y1
        linarith)
    · exact Or.inr (by
        have h1 := min_le_right b.y2 o.y2
        have h2 := le_max_left b.y1 o.y1
        linarith)
  · intro b o h
    apply iou_eq_zero_of_no_overlap
    rcases h with h | h
    · exact Or.inl (by
        have h1 := min_le_left b.x2 o.x2
        have h2 := le_max_left b.x1 o.x1
        linarith)
    · exact Or.inr (by
        have h1 := min_le_left b.y2 o.y2
        have h2 := le_max_left b.y1 o.y1
        linarith)
  · intro b o h
    apply iou_eq_zero_of_no_overlap
    rcases h with h | h
    · exact Or.inl (by
        have h1 := min_le_right b.x2 o.x2
        have h2 := le_max_right b.x1 o.x1
        linarith)
    · exact Or.inr (by
        have h1 := min_le_right b.y2 o.y2
        have h2 := le_max_right b.y1 o.y1
        linarith)

/-- Witness for C5 (amended): a 2×2 box against itself, two disjoint
boxes, and a zero-width box. -/
theorem iou_self_disjoint_degenerate_witness :
    (iou (Box.mk 0 0 2 2) (Box.mk 0 0 2 2) = 4 / (4 + 1/1000000) ∧
      iou (Box.mk 0 0 2 2) (Box.mk 0 0 2 2) < 1) ∧
    iou (Box.mk 0 0 2 2) (Box.mk 5 5 7 7) = 0 ∧
    iou (Box.mk 3 3 3 9) (Box.mk 0 0 2 2) = 0 :=
  ⟨by
    have h := iou_self_disjoint_degenerate.1 (Box.mk 0 0 2 2) (by norm_num) (by norm_num)
    refine ⟨?_, h.2⟩
    rw [h.1]
    norm_num,
   iou_self_disjoint_degenerate.2.1 (Box.mk 0 0 2 2) (Box.mk 5 5 7 7)
     (Or.inl (by norm_num)),
   iou_self_disjoint_degenerate.2.2.1 (Box.mk 3 3 3 9) (Box.mk 0 0 2 2)
     (Or.inl (by norm_num))⟩

/-- Tracking manager state, from `analyzer/tracker.py`
(`TrackingManager.__init__`): configuration plus the insertion-ordered
`_tracked_objects` dict (modelled as an association list) and the
monotonically increasing `_next_track_id` counter. -/
structure TrackingManagerState where
  iou_threshold : ℚ
  max_frames_without_detection : ℤ
  early_termination_iou : ℚ
  confidence_decay : ℚ
  max_history_size : ℕ
  tracked_objects : List (ℤ × TrackedObject) := []
  next_track_id : ℤ := 0
  deriving Repr

/-- `TrackingManager._is_track_stale`: stale when `last_seen_frame` is
unset or `frame_id - last_seen_frame > max_frames_without_detection`. -/
def isTrackStale (max_frames_without_detection : ℤ) (track : TrackedObject)
    (frame_id : ℤ) : Bool :=
  match track.last_seen_frame with
  | none => true
  | some last_seen => decide (max_frames_without_detection < frame_id - last_seen)

/-- `TrackingManager._remove_stale_tracks`: delete every stale track. -/
def removeStaleTracks (st : TrackingManagerState) (frame_id : ℤ) :
    TrackingManagerState :=
  { st with
    tracked_objects := st.tracked_objects.filter
      (fun p => !(isTrackStale st.max_frames_without_detection p.2 frame_id)) }

/-- C3.  `_remove_stale_tracks(frame_id)` keeps a track exactly when it has
a `last_seen_frame` with `frame_id - last_seen_frame ≤
max_frames_without_detection`; a gap of exactly
`max_frames_without_detection + 1` is removed, a gap of exactly
`max_frames_without_detection` is retained, and a track with no
`last_seen_frame` is removed. -/
theorem removeStaleTracks_spec (st : TrackingManagerState) (frame_id tid : ℤ)
    (tr : TrackedObject) (hmem : (tid, tr) ∈ st.tracked_objects) :
    ((tid, tr) ∈ (removeStaleTracks st frame_id).tracked_objects ↔
      ∃ last_seen, tr.last_seen_frame = some last_seen ∧
        frame_id - last_seen ≤ st.max_frames_without_detection) ∧
    (∀ last_seen, tr.last_seen_frame = some last_seen →
      frame_id - last_seen = st.max_frames_without_detection + 1 →
      (tid, tr) ∉ (removeStaleTracks st frame_id).tracked_objects) ∧
    (∀ last_seen, tr.last_seen_frame = some last_seen →
      frame_id - last_seen = st.max_frames_without_detection →
      (tid, tr) ∈ (removeStaleTracks st frame_id).tracked_objects) ∧
    (tr.last_seen_frame = none →
      (tid, tr) ∉ (removeStaleTracks st frame_id).tracked_objects) := by
  have hbase : (tid, tr) ∈ (removeStaleTracks st frame_id).tracked_objects ↔
      ∃ last_seen, tr.last_seen_frame = some last_seen ∧
        frame_id - last_seen ≤ st.max_frames_without_detection := by
    simp only [removeStaleTracks, List.mem_filter, hmem, true_and]
    cases hl : tr.last_seen_frame with
    | none => simp [isTrackStale, hl]
    | some last_seen => simp [isTrackStale, hl, not_lt]
  refine ⟨hbase, ?_, ?_, ?_⟩
  · intro last_seen hl hgap hin
    rcases hbase.mp hin with ⟨l, hl2, hle⟩
    rw [hl] at hl2
    cases hl2
    omega
  · intro last_seen hl hgap
    exact hbase.mpr ⟨last_seen, hl, by omega⟩
  · intro hl hin
    rcases hbase.mp hin with ⟨l, hl2, _⟩
    rw [hl] at hl2
    cases hl2

/-- Concrete tracking-manager state with the default test configuration and
a single track last seen at frame 3. -/
def exampleManagerState : TrackingManagerState :=
  { iou_threshold := 3/10
    max_frames_without_detection := 5
    early_termination_iou := 9/10
    confidence_decay := 1/10
    max_history_size := 5
    tracked_objects := [(0, exampleTrack)]
    next_track_id := 1 }

/-- Witness for C3: with `max_frames_without_detection = 5` and a track
last seen at frame 3, the track is removed at frame 9 (gap 6) and retained
at frame 8 (gap 5). -/
theorem removeStaleTracks_spec_witness :
    (0, exampleTrack) ∉ (removeStaleTracks exampleManagerState 9).tracked_objects ∧
    (0, exampleTrack) ∈ (removeStaleTracks exampleManagerState 8).tracked_objects :=
  ⟨(removeStaleTracks_spec exampleManagerState 9 0 exampleTrack
      (List.mem_singleton.mpr rfl)).2.1 3 rfl (by norm_num [exampleManagerState]),
   (removeStaleTracks_spec exampleManagerState 8 0 exampleTrack
      (List.mem_singleton.mpr rfl)).2.2.1 3 rfl (by norm_num [exampleManagerState])⟩

/-- Modelled from the spec: `calculate_iou` is imported by
`analyzer/tracker.py` from `common/utils/detection.py`, a module absent
from the source tree.  Per the spec, it is the standard axis-aligned box
intersection-over-union with degenerate (zero-area) boxes yielding IoU 0,
on `(x1, y1, x2, y2)` corner tuples. -/
def calculate_iou : ℤ × ℤ × ℤ × ℤ → ℤ × ℤ × ℤ × ℤ → ℚ
  | (ax1, ay1, ax2, ay2), (bx1, by1, bx2, by2) =>
    let interW := max (min ax2 bx2 - max ax1 bx1) 0
    let interH := max (min ay2 by2 - max ay1 by1) 0
    let interArea := interW * interH
    let area1 := max (ax2 - ax1) 0 * max (ay2 - ay1) 0
    let area2 := max (bx2 - bx1) 0 * max (by2 - by1) 0
    let unionArea := area1 + area2 - interArea
    if unionArea ≤ 0 then 0 else (interArea : ℚ) / (unionArea : ℚ)

/-- Inner search of `TrackingManager.match_detections_to_tracks`: scan the
tracks in insertion order, skipping other classes, already-claimed tracks
and empty histories; keep the best IoU at or above `iou_threshold`, and
break early once it reaches `early_termination_iou`.  (The code's
`if not track.history` guard and its `track.history[-1]` access are fused
into the single match on the last history entry.) -/
def bestMatchLoop (iou_threshold early_termination_iou : ℚ)
    (det : TrackedDetection) (used : List ℤ) :
    List (ℤ × TrackedObject) → Option (ℤ × ℚ) → ℚ → Option (ℤ × ℚ)
  | [], best, _ => best
  | (track_id, track) :: rest, best, best_iou =>
    if track.cls_id ≠ det.cls_id then
      bestMatchLoop iou_threshold early_termination_iou det used rest best best_iou
    else if track_id ∈ used then
      bestMatchLoop iou_threshold early_termination_iou det used rest best best_iou
    else
      match track.history.getLast? with
      | none => bestMatchLoop iou_threshold early_termination_iou det used rest best best_iou
      | some last_det =>
        let i := calculate_iou (last_det.x1, last_det.y1, last_det.x2, last_det.y2)
          (det.x1, det.y1, det.x2, det.y2)
        if best_iou < i ∧ iou_threshold ≤ i then
          if early_termination_iou ≤ i then some (track_id, i)
          else bestMatchLoop iou_threshold early_termination_iou det used rest
            (some (track_id, i)) i
        else bestMatchLoop iou_threshold early_termination_iou det used rest best best_iou

/-- One iteration of the outer loop of `match_detections_to_tracks`:
assign the detection to the best matching track or allocate a fresh track
id, append the detection to that track's history, and record the id in
`used_track_ids` (kept in detection order). -/
def matchStep (st : TrackingManagerState) (used : List ℤ)
    (det : TrackedDetection) : TrackingManagerState × List ℤ :=
  match bestMatchLoop st.iou_threshold st.early_termination_iou det used
      st.tracked_objects none 0 with
  | some (track_id, _) =>
    ({ st with
        tracked_objects := st.tracked_objects.map
          (fun p => if p.1 = track_id
            then (p.1, addDetection st.max_history_size p.2 det) else p) },
      used ++ [track_id])
  | none =>
    let track_id := st.next_track_id
    let new_track : TrackedObject :=
      { track_id := track_id, cls_id := det.cls_id, history := [] }
    let objs := st.tracked_objects ++ [(track_id, new_track)]
    ({ st with
        tracked_objects := objs.map
          (fun p => if p.1 = track_id
            then (p.1, addDetection st.max_history_size p.2 det) else p)
        next_track_id := track_id + 1 },
      used ++ [track_id])

/-- The outer loop of `match_detections_to_tracks` over all new
detections, threading the manager state and `used_track_ids`. -/
def matchDetectionsToTracksLoop (st : TrackingManagerState) (used : List ℤ) :
    List TrackedDetection → TrackingManagerState × List ℤ
  | [] => (st, used)
  | det :: rest =>
    let next := matchStep st used det
    matchDetectionsToTracksLoop next.1 next.2 rest

/-- Construction of a `TrackedDetection` from a raw detection and its
distance, frame id and timestamp (`match_detections_to_tracks` lines
60-73). -/
def mkTrackedDetection (det : Detection) (dist : ℚ) (frame_id : ℤ)
    (timestamp : ℚ) : TrackedDetection :=
  { x1 := det.x1, y1 := det.y1, x2 := det.x2, y2 := det.y2
    cls_id := det.cls_id, confidence := det.confidence
    distance := dist, frame_id := frame_id, timestamp := timestamp }

/-- `TrackingManager.match_detections_to_tracks` from
`analyzer/tracker.py`: pair detections with distances (`zip` truncates to
the shorter list), run the matching loop, and return `None` — only the
mutated manager state survives the call; the internally accumulated
`used_track_ids` is discarded. -/
def matchDetectionsToTracks (st : TrackingManagerState)
    (detections : List Detection) (distances : List ℚ)
    (frame_id : ℤ) (timestamp : ℚ) : TrackingManagerState :=
  let new_detections := (detections.zip distances).map
    (fun p => mkTrackedDetection p.1 p.2 frame_id timestamp)
  (matchDetectionsToTracksLoop st [] new_detections).1

/-- The detection used by the repository test
`test_match_detections_to_tracks_creates_new_tracks`. -/
def c1Detection : Detection :=
  { x1 := 10, y1 := 20, x2 := 50, y2 := 60, cls_id := 0, confidence := 9/10 }

/-- A freshly constructed tracking manager with the test-suite
configuration and no tracks. -/
def c1ManagerInit : TrackingManagerState :=
  { iou_threshold := 3/10
    max_frames_without_detection := 5
    early_termination_iou := 9/10
    confidence_decay := 1/10
    max_history_size := 5 }

/-- C1.  Evaluating `match_detections_to_tracks` on the input of the
repository test `test_match_detections_to_tracks_creates_new_tracks`: the
call creates track 0 holding the detection and bumps the id counter, and
the matching loop internally accumulates the updated track ids `[0]` in
detection order — but the function's value is only the manager state; the
ids are never returned (the Python function returns `None`), contradicting
the test and the caller in `analyzer/manager.py`, which unpack
`(updated_ids, assignments)` from the call. -/
theorem matchDetectionsToTracks_returns_state_only :
    matchDetectionsToTracks c1ManagerInit [c1Detection] [5/2] 1 1 =
      { c1ManagerInit with
        tracked_objects := [(0,
          { track_id := 0, cls_id := 0
            history := [{ x1 := 10, y1 := 20, x2 := 50, y2 := 60, cls_id := 0
                          confidence := 9/10, distance := 5/2
                          frame_id := 1, timestamp := 1 }]
            last_seen_frame := some 1, detection_count := 1 })]
        next_track_id := 1 } ∧
    (matchDetectionsToTracksLoop c1ManagerInit []
      [mkTrackedDetection c1Detection (5/2) 1 1]).2 = [0] :=
  ⟨rfl, rfl⟩

/-- The send loop of `AnalyzerWebSocketManager._send_metadata`: iterate the
snapshot, attempt each send, and collect the subscribers whose send failed
into `dead_connections` without aborting the loop.  `sendOk w = true`
models a successful `websocket.send_text`, `false` a raised exception.
Returns (subscribers that received the message, dead connections). -/
def broadcastLoop (sendOk : α → Bool) : List α → List α × List α
  | [] => ([], [])
  | w :: ws =>
    let rest := broadcastLoop sendOk ws
    if sendOk w then (w :: rest.1, rest.2) else (rest.1, w :: rest.2)

/-- `AnalyzerWebSocketManager._send_metadata`: send to every subscriber in
a snapshot copy of `active_connections`, then — only after the loop is
done — subtract the collected `dead_connections` from the live set.
Returns (delivered-to subscribers, new active set). -/
def sendMetadata [DecidableEq α] (active : List α) (sendOk : α → Bool) :
    List α × List α :=
  let snapshot := active
  let result := broadcastLoop sendOk snapshot
  let dead := result.2
  (result.1, active.filter (fun w => decide (w ∉ dead)))

theorem broadcastLoop_fst (sendOk : α → Bool) :
    ∀ l : List α, (broadcastLoop sendOk l).1 = l.filter sendOk
  | [] => rfl
  | w :: ws => by
    simp only [broadcastLoop, List.filter_cons]
    cases h : sendOk w <;> simp [h, broadcastLoop_fst sendOk ws]

theorem broadcastLoop_snd (sendOk : α → Bool) :
    ∀ l : List α, (broadcastLoop sendOk l).2 = l.filter (fun w => !(sendOk w))
  | [] => rfl
  | w :: ws => by
    simp only [broadcastLoop, List.filter_cons]
    cases h : sendOk w <;> simp [h, broadcastLoop_snd sendOk ws]

/-- C8.  Broadcasting metadata: every subscriber whose send succeeds
receives the message (failures of other subscribers never abort the
remaining sends), and the new active set is exactly the old one minus the
failing subscribers, computed from the collected dead set only after the
whole snapshot iteration. -/
theorem sendMetadata_spec [DecidableEq α] (active : List α) (sendOk : α → Bool) :
    (sendMetadata active sendOk).1 = active.filter sendOk ∧
    (sendMetadata active sendOk).2 = active.filter sendOk ∧
    (∀ w ∈ active, sendOk w = true →
      w ∈ (sendMetadata active sendOk).1 ∧ w ∈ (sendMetadata active sendOk).2) ∧
    (∀ w ∈ active, sendOk w = false →
      w ∉ (sendMetadata active sendOk).1 ∧ w ∉ (sendMetadata active sendOk).2) := by
  have hfst : (sendMetadata active sendOk).1 = active.filter sendOk := by
    simp [sendMetadata, broadcastLoop_fst]
  have hsnd : (sendMetadata active sendOk).2 = active.filter sendOk := by
    simp only [sendMetadata]
    rw [List.filter_congr]
    intro w hw
    cases hok : sendOk w <;>
      simp [broadcastLoop_snd, List.mem_filter, hw, hok]
  refine ⟨hfst, hsnd, ?_, ?_⟩
  · intro w hw hok
    rw [hfst, hsnd]
    exact ⟨List.mem_filter.mpr ⟨hw, hok⟩, List.mem_filter.mpr ⟨hw, hok⟩⟩
  · intro w hw hok
    rw [hfst, hsnd]
    constructor <;> intro hmem <;>
      simpa [hok] using (List.mem_filter.mp hmem).2

/-- Witness for C8: three subscribers where subscriber 2's send fails —
1 and 3 receive the message and stay active, 2 is removed. -/
theorem sendMetadata_spec_witness :
    (sendMetadata [1, 2, 3] (fun w : ℕ => decide (w ≠ 2))).1 = [1, 3] ∧
    (sendMetadata [1, 2, 3] (fun w : ℕ => decide (w ≠ 2))).2 = [1, 3] ∧
    (2 : ℕ) ∉ (sendMetadata [1, 2, 3] (fun w : ℕ => decide (w ≠ 2))).2 := by
  have h := sendMetadata_spec [1, 2, 3] (fun w : ℕ => decide (w ≠ 2))
  refine ⟨?_, ?_, (h.2.2.2 2 (by decide) (by decide)).2⟩
  · rw [h.1]
    decide
  · rw [h.2.1]
    decide

/-- Substring containment: the characters of `sub` occur contiguously
inside `s`. -/
def strContains (s sub : String) : Prop :=
  sub.data <:+: s.data

/-- A string built as `a ++ b ++ c` contains `b`. -/
theorem strContains_middle (a b c : String) : strContains (a ++ b ++ c) b := by
  refine ⟨a.data, c.data, ?_⟩
  simp [String.data_append]

/-- Lexicographic (codepoint) comparison on the character lists of two
strings, modelling Python string comparison. -/
def charListLe : List Char → List Char → Bool
  | [], _ => true
  | _ :: _, [] => false
  | a :: as, b :: bs =>
    if a < b then true else if b < a then false else charListLe as bs

/-- Insert a string into a sorted list (insertion step of `sorted()`). -/
def insertSorted (s : String) : List String → List String
  | [] => [s]
  | t :: rest =>
    if charListLe s.data t.data then s :: t :: rest else t :: insertSorted s rest

/-- Python's `sorted()` on strings, as insertion sort over the codepoint
order. -/
def sortStrings : List String → List String
  | [] => []
  | s :: rest => insertSorted s (sortStrings rest)

/-- Python's `", ".join(...)`. -/
def joinComma : List String → String
  | [] => ""
  | [s] => s
  | s :: rest => s ++ ", " ++ joinComma rest

theorem mem_insertSorted (x s : String) :
    ∀ l : List String, x ∈ insertSorted s l ↔ x = s ∨ x ∈ l
  | [] => by simp [insertSorted]
  | t :: rest => by
    unfold insertSorted
    split
    · simp
    · simp [mem_insertSorted x s rest]
      tauto

theorem mem_sortStrings (x : String) :
    ∀ l : List String, x ∈ sortStrings l ↔ x ∈ l
  | [] => Iff.rfl
  | s :: rest => by
    simp [sortStrings, mem_insertSorted, mem_sortStrings x rest]

/-- Every member of a list is contained in its comma join. -/
theorem strContains_joinComma (x : String) :
    ∀ l : List String, x ∈ l → strContains (joinComma l) x
  | [], hx => absurd hx (List.not_mem_nil x)
  | [s], hx => by
    rcases List.mem_singleton.mp hx with rfl
    exact ⟨[], [], by simp [joinComma]⟩
  | s :: t :: rest, hx => by
    rcases List.mem_cons.mp hx with rfl | hx2
    · refine ⟨[], (", " ++ joinComma (t :: rest)).data, ?_⟩
      simp [joinComma, String.data_append]
    · have ih := strContains_joinComma x (t :: rest) hx2
      rcases ih with ⟨pre, suf, hps⟩
      refine ⟨(s ++ ", ").data ++ pre, suf, ?_⟩
      simp only [joinComma, String.data_append]
      rw [← hps]
      simp [List.append_assoc]

/-- Python's `str.lower()`, modelled as per-character lowercasing of the
string's characters (backend names are ASCII). -/
def pyLower (s : String) : String :=
  String.mk (s.data.map Char.toLower)

/-- The detector engines selectable in `_Detector.__init__`
(`common/core/detector.py`): the ONNX Runtime engine and the Torch
engine. -/
inductive DetectorEngine where
  | onnx
  | torch
  deriving Repr, DecidableEq

/-- Backend selection of `_Detector.__init__`: lowercase the requested
backend (falling back to `config.DETECTOR_BACKEND`), build the matching
engine, and otherwise raise a `ValueError` naming the offending backend
and the two valid options. -/
def detectorInitBackend (backend : Option String) (configBackend : String) :
    Except String DetectorEngine :=
  let backend_name := pyLower (backend.getD configBackend)
  if backend_name = "onnx" then Except.ok DetectorEngine.onnx
  else if backend_name = "torch" then Except.ok DetectorEngine.torch
  else Except.error ("Unsupported DETECTOR_BACKEND \x27" ++ backend_name ++
    "\x27. Use \x27" ++ "torch" ++ "\x27 or \x27" ++ "onnx" ++ "\x27.")

/-- `available_depth_backends` from `common/core/depth.py`: the sorted
registered backend names. -/
def available_depth_backends {F : Type} (registry : List (String × F)) :
    List String :=
  sortStrings (registry.map Prod.fst)

/-- `_default_depth_estimator_factory` from `common/core/depth.py`: look
the configured backend name up in the registry; on a hit apply the
registered factory to the cache directory, otherwise raise a `ValueError`
naming the unknown backend and listing the known ones (`'none'` when the
registry is empty). -/
def default_depth_estimator_factory {γ ε : Type}
    (registry : List (String × (Option γ → ε))) (configBackend : String)
    (midas_cache_directory : Option γ) : Except String ε :=
  match List.lookup configBackend registry with
  | some factory => Except.ok (factory midas_cache_directory)
  | none =>
    let known := joinComma (available_depth_backends registry)
    Except.error ("Unsupported DEPTH_BACKEND \x27" ++ configBackend ++
      "\x27. Known backends: " ++ (if known = "" then "none" else known) ++ ".")

/-- A string that splits as `pre ++ mid ++ suf` contains `mid`. -/
theorem strContains_of_split (s pre mid suf : String)
    (h : s = pre ++ mid ++ suf) : strContains s mid := by
  subst h
  exact strContains_middle pre mid suf

/-- C6.  Resolving an unregistered depth backend fails with an error
message containing the offending name and every registered backend name;
a registered name resolves to the registered factory applied to the cache
directory.  Likewise the detector: an unknown name (after lowercasing)
fails with a message containing the offending name and both valid names
`torch` and `onnx`, and the two valid names build the matching engine. -/
theorem backend_resolution_spec {γ ε : Type} :
    (∀ (registry : List (String × (Option γ → ε))) (name : String)
        (cache : Option γ), List.lookup name registry = none →
      ∃ msg, default_depth_estimator_factory registry name cache = Except.error msg ∧
        strContains msg name ∧
        ∀ k ∈ registry.map Prod.fst, strContains msg k) ∧
    (∀ (registry : List (String × (Option γ → ε))) (name : String)
        (factory : Option γ → ε) (cache : Option γ),
      List.lookup name registry = some factory →
      default_depth_estimator_factory registry name cache =
        Except.ok (factory cache)) ∧
    (∀ (backend : Option String) (configBackend : String),
      pyLower (backend.getD configBackend) ≠ "onnx" →
      pyLower (backend.getD configBackend) ≠ "torch" →
      ∃ msg, detectorInitBackend backend configBackend = Except.error msg ∧
        strContains msg (pyLower (backend.getD configBackend)) ∧
        strContains msg "torch" ∧ strContains msg "onnx") ∧
    (∀ (backend : Option String) (configBackend : String),
      pyLower (backend.getD configBackend) = "onnx" →
      detectorInitBackend backend configBackend = Except.ok DetectorEngine.onnx) ∧
    (∀ (backend : Option String) (configBackend : String),
      pyLower (backend.getD configBackend) = "torch" →
      detectorInitBackend backend configBackend = Except.ok DetectorEngine.torch) := by
  refine ⟨?_, ?_, ?_, ?_, ?_⟩
  · intro registry name cache hnone
    simp only [default_depth_estimator_factory, hnone]
    refine ⟨_, rfl, ?_, ?_⟩
    · exact strContains_of_split _ "Unsupported DEPTH_BACKEND \x27" name
        ("\x27. Known backends: " ++
          (if joinComma (available_depth_backends registry) = "" then "none"
            else joinComma (available_depth_backends registry)) ++ ".")
        (by simp [String.append_assoc])
    · intro k hk
      have hk2 : k ∈ available_depth_backends registry :=
        (mem_sortStrings k _).mpr hk
      have hjoin := strContains_joinComma k _ hk2
      by_cases hempty : joinComma (available_depth_backends registry) = ""
      · have hkdata : k.data = [] := by
          rcases hjoin with ⟨pre, suf, hps⟩
          rw [hempty] at hps
          have hlen := congrArg List.length hps
          simp only [List.length_append, List.length_nil] at hlen
          exact List.length_eq_zero.mp (by omega)
        show k.data <:+: _
        rw [hkdata]
        exact List.nil_infix
      · rw [if_neg hempty]
        have hM : strContains ("Unsupported DEPTH_BACKEND \x27" ++ name ++
            "\x27. Known backends: " ++
            joinComma (available_depth_backends registry) ++ ".")
            (joinComma (available_depth_backends registry)) :=
          strContains_of_split _
            ("Unsupported DEPTH_BACKEND \x27" ++ name ++ "\x27. Known backends: ")
            (joinComma (available_depth_backends registry)) "."
            (by simp [String.append_assoc])
        exact hjoin.trans hM
  · intro registry name factory cache hsome
    simp only [default_depth_estimator_factory, hsome]
  · intro backend configBackend honnx htorch
    simp only [detectorInitBackend, if_neg honnx, if_neg htorch]
    refine ⟨_, rfl, ?_, ?_, ?_⟩
    · exact strContains_of_split _ "Unsupported DETECTOR_BACKEND \x27"
        (pyLower (backend.getD configBackend))
        ("\x27. Use \x27" ++ "torch" ++ "\x27 or \x27" ++ "onnx" ++ "\x27.")
        (by simp [String.append_assoc])
    · exact strContains_of_split _
        ("Unsupported DETECTOR_BACKEND \x27" ++
          pyLower (backend.getD configBackend) ++ "\x27. Use \x27")
        "torch" ("\x27 or \x27" ++ "onnx" ++ "\x27.")
        (by simp [String.append_assoc])
    · exact strContains_of_split _
        ("Unsupported DETECTOR_BACKEND \x27" ++
          pyLower (backend.getD configBackend) ++ "\x27. Use \x27" ++ "torch" ++
          "\x27 or \x27")
        "onnx" "\x27."
        (by simp [String.append_assoc])
  · intro backend configBackend h
    simp only [detectorInitBackend, if_pos h]
  · intro backend configBackend h
    have hne : pyLower (backend.getD configBackend) ≠ "onnx" := by
      rw [h]
      decide
    simp only [detectorInitBackend, if_neg hne, if_pos h]

/-- A concrete depth-backend registry with the two built-in backends
(`register_depth_backend("torch", ...)`, `register_depth_backend("onnx",
...)`), with factories abstracted to numeric tags. -/
def exampleRegistry : List (String × (Option Unit → ℕ)) :=
  [("torch", fun _ => 1), ("onnx", fun _ => 2)]

/-- Witness for C6: the unregistered name `tensorrt` produces an error
message containing it and both registered names; the registered name
`onnx` resolves through its factory; the unknown detector backend
`openvino` produces an error naming it and both valid options; `torch`
builds the torch engine. -/
theorem backend_resolution_spec_witness :
    (∃ msg, default_depth_estimator_factory exampleRegistry "tensorrt" none =
        Except.error msg ∧ strContains msg "tensorrt" ∧
        ∀ k ∈ exampleRegistry.map Prod.fst, strContains msg k) ∧
    default_depth_estimator_factory exampleRegistry "onnx" none = Except.ok 2 ∧
    (∃ msg, detectorInitBackend none "openvino" = Except.error msg ∧
      strContains msg (pyLower (Option.getD none "openvino")) ∧
      strContains msg "torch" ∧ strContains msg "onnx") ∧
    detectorInitBackend none "torch" = Except.ok DetectorEngine.torch :=
  ⟨(@backend_resolution_spec Unit ℕ).1 exampleRegistry "tensorrt" none rfl,
   (@backend_resolution_spec Unit ℕ).2.1 exampleRegistry "onnx" (fun _ => 2) none rfl,
   (@backend_resolution_spec Unit ℕ).2.2.1 none "openvino" (by decide) (by decide),
   (@backend_resolution_spec Unit ℕ).2.2.2.2 none "torch" (by decide)⟩

/-- `math.radians`: degrees to radians. -/
noncomputable def radiansOf (deg : ℝ) : ℝ :=
  deg * Real.pi / 180

/-- `compute_camera_intrinsics` from `common/utils/camera.py`: floor width
and height to at least 1; keep explicit positive `fx`/`fy`/`cx`/`cy`
overrides; otherwise derive `fx` from the horizontal FOV when positive,
derive `fy` from the vertical FOV when positive or fall back to `fy = fx`;
default `cx`/`cy` to the image center. -/
noncomputable def compute_camera_intrinsics (width height : ℤ)
    (fx fy cx cy fov_x_deg fov_y_deg : ℝ) : ℝ × ℝ × ℝ × ℝ :=
  let w : ℤ := max 1 width
  let h : ℤ := max 1 height
  let fx1 := if fx ≤ 0 ∧ 0 < fov_x_deg
    then (w : ℝ) / (2 * Real.tan (radiansOf fov_x_deg / 2)) else fx
  let fy1 := if fy ≤ 0
    then (if 0 < fov_y_deg
      then (h : ℝ) / (2 * Real.tan (radiansOf fov_y_deg / 2)) else fx1)
    else fy
  let cx1 := if cx ≤ 0 then (w : ℝ) / 2 else cx
  let cy1 := if cy ≤ 0 then (h : ℝ) / 2 else cy
  (fx1, fy1, cx1, cy1)

/-- C7.  `compute_camera_intrinsics` keeps positive explicit overrides,
derives `fx = width / (2 tan(fov_x/2))` when `fx ≤ 0 < fov_x`, derives
`fy` symmetrically or falls back to `fy = fx`, defaults the principal
point to the image center, floors width/height to at least 1, and on
`(640, 480, 0, 0, 0, 0, 90, 0)` returns exactly `(320, 320, 320, 240)`. -/
theorem compute_camera_intrinsics_spec :
    (∀ (width height : ℤ) (fx fy cx cy fovx fovy : ℝ),
      0 < fx → 0 < fy → 0 < cx → 0 < cy →
      compute_camera_intrinsics width height fx fy cx cy fovx fovy =
        (fx, fy, cx, cy)) ∧
    (∀ (width height : ℤ) (fx fy cx cy fovx fovy : ℝ), fx ≤ 0 → 0 < fovx →
      (compute_camera_intrinsics width height fx fy cx cy fovx fovy).1 =
        ((max 1 width : ℤ) : ℝ) / (2 * Real.tan (radiansOf fovx / 2))) ∧
    (∀ (width height : ℤ) (fx fy cx cy fovx fovy : ℝ), fy ≤ 0 → 0 < fovy →
      (compute_camera_intrinsics width height fx fy cx cy fovx fovy).2.1 =
        ((max 1 height : ℤ) : ℝ) / (2 * Real.tan (radiansOf fovy / 2))) ∧
    (∀ (width height : ℤ) (fx fy cx cy fovx fovy : ℝ), fy ≤ 0 → fovy ≤ 0 →
      (compute_camera_intrinsics width height fx fy cx cy fovx fovy).2.1 =
        (compute_camera_intrinsics width height fx fy cx cy fovx fovy).1) ∧
    (∀ (width height : ℤ) (fx fy cx cy fovx fovy : ℝ), cx ≤ 0 →
      (compute_camera_intrinsics width height fx fy cx cy fovx fovy).2.2.1 =
        ((max 1 width : ℤ) : ℝ) / 2) ∧
    (∀ (width height : ℤ) (fx fy cx cy fovx fovy : ℝ), cy ≤ 0 →
      (compute_camera_intrinsics width height fx fy cx cy fovx fovy).2.2.2 =
        ((max 1 height : ℤ) : ℝ) / 2) ∧
    compute_camera_intrinsics 640 480 0 0 0 0 90 0 = (320, 320, 320, 240) := by
  refine ⟨?_, ?_, ?_, ?_, ?_, ?_, ?_⟩
  · intro width height fx fy cx cy fovx fovy hfx hfy hcx hcy
    simp only [compute_camera_intrinsics]
    rw [if_neg (by intro h; linarith [h.1]), if_neg (by linarith),
      if_neg (by linarith), if_neg (by linarith)]
  · intro width height fx fy cx cy fovx fovy hfx hfov
    simp only [compute_camera_intrinsics]
    rw [if_pos ⟨hfx, hfov⟩]
  · intro width height fx fy cx cy fovx fovy hfy hfov
    simp only [compute_camera_intrinsics]
    rw [if_pos hfy, if_pos hfov]
  · intro width height fx fy cx cy fovx fovy hfy hfov
    simp only [compute_camera_intrinsics]
    rw [if_pos hfy, if_neg (not_lt.mpr hfov)]
  · intro width height fx fy cx cy fovx fovy hcx
    simp only [compute_camera_intrinsics]
    rw [if_pos hcx]
  · intro width height fx fy cx cy fovx fovy hcy
    simp only [compute_camera_intrinsics]
    rw [if_pos hcy]
  · have hrad : radiansOf 90 / 2 = Real.pi / 4 := by
      unfold radiansOf
      ring
    have htan : Real.tan (radiansOf 90 / 2) = 1 := by
      rw [hrad, Real.tan_pi_div_four]
    simp only [compute_camera_intrinsics, htan]
    rw [if_pos ⟨le_refl (0 : ℝ), by norm_num⟩, if_pos (le_refl (0 : ℝ)),
      if_neg (by norm_num), if_pos (le_refl (0 : ℝ)), if_pos (le_refl (0 : ℝ))]
    norm_num

/-- Witness for C7: explicit positive overrides are kept verbatim, and the
spec's concrete scenario holds. -/
theorem compute_camera_intrinsics_spec_witness :
    compute_camera_intrinsics 640 480 500 500 320 240 0 0 = (500, 500, 320, 240) ∧
    compute_camera_intrinsics 640 480 0 0 0 0 90 0 = (320, 320, 320, 240) :=
  ⟨compute_camera_intrinsics_spec.1 640 480 500 500 320 240 0 0
      (by norm_num) (by norm_num) (by norm_num) (by norm_num),
   compute_camera_intrinsics_spec.2.2.2.2.2.2⟩

/-- All entries of a row-major matrix. -/
def matFlatten (m : List (List ℚ)) : List ℚ :=
  m.flatten

/-- `np.mean` over a matrix: sum divided by element count (0 for the empty
region, where NumPy would produce NaN). -/
def npMean (m : List (List ℚ)) : ℚ :=
  (matFlatten m).sum / ((matFlatten m).length : ℚ)

/-- `np.median`: middle element of the sorted values (mean of the two
middle elements for an even count; 0 for the empty list, where NumPy
would produce NaN). -/
def npMedian (l : List ℚ) : ℚ :=
  let s := l.insertionSort (· ≤ ·)
  if s.length = 0 then 0
  else if s.length % 2 = 1 then s.getD (s.length / 2) 0
  else (s.getD (s.length / 2 - 1) 0 + s.getD (s.length / 2) 0) / 2

/-- `(rows, columns)` of a row-major matrix (`.shape`). -/
def matShape {α : Type} (m : List (List α)) : ℕ × ℕ :=
  (m.length, (m.headD []).length)

/-- `bbox_center`: integer center of a box, `int((x1+x2)/2)` with
truncating division, as inlined in `common/core/depth_utils.py` (the
`common/utils/detection.py` module that exports it is absent from the
source tree). -/
def bbox_center (x1 y1 x2 y2 : ℤ) : ℤ × ℤ :=
  (Int.tdiv (x1 + x2) 2, Int.tdiv (y1 + y2) 2)

/-- `calculate_region_bounds` (`_calculate_region_bounds` in
`common/utils/depth.py`): square sampling region around a center, clamped
to the frame; returns `(x_start, x_end, y_start, y_end)`. -/
def calculate_region_bounds (center_x center_y : ℤ) (region_size : ℕ)
    (frame_width frame_height : ℤ) : ℤ × ℤ × ℤ × ℤ :=
  let half_size : ℤ := (region_size : ℤ) / 2
  (max (center_x - half_size) 0, min (center_x + half_size + 1) frame_width,
    max (center_y - half_size) 0, min (center_y + half_size + 1) frame_height)

/-- `depth_map[y_start:y_end, x_start:x_end]` for clamped non-negative
bounds. -/
def regionSlice (depth_map : List (List ℚ)) (y_start y_end x_start x_end : ℤ) :
    List (List ℚ) :=
  ((depth_map.take y_end.toNat).drop y_start.toNat).map
    (fun row => (row.take x_end.toNat).drop x_start.toNat)

/-- `_estimate_depth_from_bbox` from `common/utils/depth.py`: mean inverse
depth over the clamped region around the box center. -/
def estimate_depth_from_bbox (depth_map : List (List ℚ)) (det : Detection)
    (region_size : ℕ) (w h : ℤ) : ℚ :=
  let c := bbox_center det.x1 det.y1 det.x2 det.y2
  let b := calculate_region_bounds c.1 c.2 region_size w h
  npMean (regionSlice depth_map b.2.2.1 b.2.2.2 b.1 b.2.1)

/-- The depth-map entries selected by a boolean mask, row-major
(`depth_map[mask_pixels]`). -/
def maskedValues (depth_map : List (List ℚ)) (mask : List (List Bool)) :
    List ℚ :=
  ((depth_map.zip mask).map
    (fun p => (p.1.zip p.2).filterMap
      (fun q => if q.2 then some q.1 else none))).flatten

/-- `_estimate_depth_from_mask` from `common/utils/depth.py`: median
inverse depth over the mask pixels, resizing the mask to the depth map's
shape when they differ (`cv2.resize(..., INTER_NEAREST)`, an external
collaborator modelled by the `resizeMask` parameter), with `1e-6`
fallbacks for an absent, empty or all-false mask. -/
def estimate_depth_from_mask
    (resizeMask : List (List Bool) → ℕ × ℕ → List (List Bool))
    (depth_map : List (List ℚ)) (det : Detection) : ℚ :=
  match det.binary_mask with
  | none => 1/1000000
  | some mask =>
    if mask.length = 0 ∨ (mask.headD []).length = 0 then 1/1000000
    else
      let hw := matShape depth_map
      let mask2 := if matShape mask ≠ hw then resizeMask mask hw else mask
      let vals := maskedValues depth_map mask2
      if vals.length = 0 then 1/1000000
      else max (npMedian vals) (1/1000000)

/-- `inverse_depth_to_distance` (`_inverse_depth_to_distance` in
`common/utils/depth.py`): `scale_factor / max(inverse_depth, 1e-6)`. -/
def inverse_depth_to_distance (inverse_depth scale_factor : ℚ) : ℚ :=
  scale_factor / max inverse_depth (1/1000000)

/-- The distance computed for one detection inside `calculate_distances`:
mask sampling when a mask is present, bbox-center sampling otherwise,
converted from inverse depth to meters. -/
def detDistance (resizeMask : List (List Bool) → ℕ × ℕ → List (List Bool))
    (depth_map : List (List ℚ)) (region_size : ℕ) (scale_factor : ℚ)
    (w h : ℤ) (det : Detection) : ℚ :=
  let inverse_depth := match det.binary_mask with
    | some _ => estimate_depth_from_mask resizeMask depth_map det
    | none => estimate_depth_from_bbox depth_map det region_size w h
  inverse_depth_to_distance inverse_depth scale_factor

/-- `calculate_distances` from `common/utils/depth.py`: one distance per
detection, in input order. -/
def calculate_distances
    (resizeMask : List (List Bool) → ℕ × ℕ → List (List Bool))
    (depth_map : List (List ℚ)) (dets : List Detection)
    (region_size : ℕ) (scale_factor : ℚ) : List ℚ :=
  let hw := matShape depth_map
  dets.map (detDistance resizeMask depth_map region_size scale_factor
    (hw.2 : ℤ) (hw.1 : ℤ))

/-- Mutable state of `_BaseMiDasDepthEstimator` from
`common/core/depth.py`: sampling configuration, the call counter
(initialized to -1) and the memoized distances of the previous
computation. -/
structure MiDasState where
  region_size : ℕ
  scale_factor : ℚ
  update_freq : ℕ
  update_id : ℤ := -1
  last_depths : List ℚ := []
  deriving Repr

/-- `_BaseMiDasDepthEstimator.estimate_distance_m`: bump the call counter;
if the counter is off the `update_freq` modulo and the detection count is
unchanged, return the memoized distances; otherwise predict a depth map
(`_predict_depth_map`, the model inference collaborator modelled by the
`predictDepthMap` parameter) and recompute.  Returns the new state and the
distances. -/
def estimate_distance_m {Frame : Type}
    (predictDepthMap : Frame → List (List ℚ))
    (resizeMask : List (List Bool) → ℕ × ℕ → List (List Bool))
    (st : MiDasState) (frame_rgb : Frame) (dets : List Detection) :
    MiDasState × List ℚ :=
  let uid := st.update_id + 1
  if uid % (st.update_freq : ℤ) ≠ 0 ∧ st.last_depths.length = dets.length then
    ({ st with update_id := uid }, st.last_depths)
  else
    let depth_map := predictDepthMap frame_rgb
    let distances := calculate_distances resizeMask depth_map dets
      st.region_size st.scale_factor
    ({ st with update_id := uid, last_depths := distances }, distances)

/-- C10.  `estimate_distance_m` memoizes by call count: when the bumped
counter is off the `update_freq` modulo and the detection count matches
the stored distances, it returns the stored distances of an earlier frame
unchanged — the result does not mention the depth-map predictor or the
frame at all; when the counter hits the modulo or the detection count
changes, it recomputes from a fresh depth map, and the recomputed result
has exactly one distance per input detection, the i-th distance computed
from the i-th detection. -/
theorem estimate_distance_m_spec {Frame : Type} :
    (∀ (predictDepthMap : Frame → List (List ℚ))
        (resizeMask : List (List Bool) → ℕ × ℕ → List (List Bool))
        (st : MiDasState) (frame_rgb : Frame) (dets : List Detection),
      0 < st.update_freq →
      (st.update_id + 1) % (st.update_freq : ℤ) ≠ 0 →
      st.last_depths.length = dets.length →
      estimate_distance_m predictDepthMap resizeMask st frame_rgb dets =
        ({ st with update_id := st.update_id + 1 }, st.last_depths)) ∧
    (∀ (predictDepthMap : Frame → List (List ℚ))
        (resizeMask : List (List Bool) → ℕ × ℕ → List (List Bool))
        (st : MiDasState) (frame_rgb : Frame) (dets : List Detection),
      (st.update_id + 1) % (st.update_freq : ℤ) = 0 ∨
        st.last_depths.length ≠ dets.length →
      (estimate_distance_m predictDepthMap resizeMask st frame_rgb dets).2 =
        calculate_distances resizeMask (predictDepthMap frame_rgb) dets
          st.region_size st.scale_factor) ∧
    (∀ (resizeMask : List (List Bool) → ℕ × ℕ → List (List Bool))
        (depth_map : List (List ℚ)) (dets : List Detection)
        (region_size : ℕ) (scale_factor : ℚ),
      (calculate_distances resizeMask depth_map dets region_size
          scale_factor).length = dets.length ∧
      ∀ (i : ℕ) (hi : i < dets.length)
        (hi2 : i < (calculate_distances resizeMask depth_map dets region_size
          scale_factor).length),
        (calculate_distances resizeMask depth_map dets region_size
            scale_factor).get ⟨i, hi2⟩ =
          detDistance resizeMask depth_map region_size scale_factor
            (((matShape depth_map).2 : ℕ) : ℤ) (((matShape depth_map).1 : ℕ) : ℤ)
            (dets.get ⟨i, hi⟩)) := by
  refine ⟨?_, ?_, ?_⟩
  · intro predictDepthMap resizeMask st frame_rgb dets hfreq hmod hlen
    simp only [estimate_distance_m]
    rw [if_pos ⟨hmod, hlen⟩]
  · intro predictDepthMap resizeMask st frame_rgb dets h
    simp only [estimate_distance_m]
    rw [if_neg]
    rintro ⟨ha, hb⟩
    rcases h with h | h
    · exact ha h
    · exact h hb
  · intro resizeMask depth_map dets region_size scale_factor
    refine ⟨by simp [calculate_distances], ?_⟩
    intro i hi hi2
    simp [calculate_distances]

/-- A maskless detection used to instantiate the depth-estimator
theorems. -/
def exampleDepthDet : Detection :=
  { x1 := 0, y1 := 0, x2 := 2, y2 := 2, cls_id := 0, confidence := 1 }

/-- Witness for C10: with `update_freq = 3`, counter at 0 and one stored
distance, a one-detection call returns the stored distance unchanged and
only bumps the counter. -/
theorem estimate_distance_m_spec_witness :
    estimate_distance_m (fun _ : Unit => [[2]]) (fun m _ => m)
      { region_size := 5, scale_factor := 1, update_freq := 3,
        update_id := 0, last_depths := [7] } () [exampleDepthDet] =
    ({ region_size := 5, scale_factor := 1, update_freq := 3,
        update_id := 1, last_depths := [7] }, [7]) :=
  (@estimate_distance_m_spec Unit).1 (fun _ => [[2]]) (fun m _ => m)
    { region_size := 5, scale_factor := 1, update_freq := 3,
      update_id := 0, last_depths := [7] } () [exampleDepthDet]
    (by decide) (by decide) (by decide)
